import Mathlib

/-!
# Verification of the challenge-bypass-ristretto batch tools

Shallow embedding of the two binaries in this repository:

* `tools/offline-processor/src/main.rs` — batch-verifies redemption records
  against an issuer key table, partitioning correlation lines into a success
  and a failure output file;
* `tools/cbp-dump-processor/src/main.rs` — augments a CSV issuer dump with
  each key's derived public key.

The cryptographic primitives of the `challenge_bypass_ristretto` crate
(`SigningKey::decode_base64`, `public_key.encode_base64`, the
rederive/derive/verify chain) are external collaborators, so the embedding is
parametric in a key type `K`, a token-preimage type `P`, a signature type `S`,
a fallible decoder `decode : String → Option K`, a public-key encoder
`pubEncode : K → String`, and the composite verification service
`verify : K → P → String → S → Bool`.

Rust `String`s that the escape decoder rewrites character by character are
modelled as `List Char`; all other strings stay `String`.
-/

/-! ## Escape decoding of the nested credential column

`deserialize_json_string_credentialcolumn` (offline-processor, lines 57-66)
un-escapes the raw credential field with
`s.replace("\\,", ",").replace("\\\\", "\\")` before JSON-parsing it.
`str::replace` rewrites leftmost, non-overlapping occurrences; for a
two-character pattern `\\c ↦ c` that scan is the recursion below.
-/

/-- Leftmost non-overlapping replacement of the two-character pattern
backslash-`target` by `target`, the semantics of Rust
`s.replace("\\<target>", "<target>")` for a single character `target`. -/
def replaceEscapedChar (target : Char) : List Char → List Char
  | [] => []
  | [c] => [c]
  | c1 :: c2 :: rest =>
    if c1 = '\\' ∧ c2 = target then target :: replaceEscapedChar target rest
    else c1 :: replaceEscapedChar target (c2 :: rest)

/-- The decoder's un-escaping of the nested credential column:
`s.replace("\\,", ",").replace("\\\\", "\\")` from
`deserialize_json_string_credentialcolumn`. -/
def unescapeCredential (s : List Char) : List Char :=
  replaceEscapedChar '\\' (replaceEscapedChar ',' s)

/-- The outer record format's field delimiter: the offline processor reads its
input with `csv::ReaderBuilder::new().delimiter(b';')` (main, line 95). -/
def outerDelimiter : Char := ';'

/-- Modelled from the spec: the escape-encoding applied upstream to nest the
structured credential field in the flat record format is not part of this
repository. Following the spec's words — "occurrences of the delimiter and the
escape character itself are escaped" — it escapes the escape character `\` and
the character the source decoder actually un-escapes (the comma). -/
def escapeCredentialChar (c : Char) : List Char :=
  if c = '\\' then ['\\', '\\'] else if c = ',' then ['\\', ','] else [c]

/-- Modelled from the spec: escape-encode a whole credential field. -/
def escapeCredential : List Char → List Char
  | [] => []
  | c :: s => escapeCredentialChar c ++ escapeCredential s

/-- Intermediate form after the first `replace` pass undoes the comma
escaping: commas are bare again, backslashes still doubled. -/
def halfEscaped : List Char → List Char
  | [] => []
  | c :: s => (if c = '\\' then ['\\', '\\'] else [c]) ++ halfEscaped s

theorem replaceEscapedChar_cons_ne (target c : Char) (hc : c ≠ '\\')
    (l : List Char) :
    replaceEscapedChar target (c :: l) = c :: replaceEscapedChar target l := by
  cases l with
  | nil => rfl
  | cons c2 l2 =>
    rw [replaceEscapedChar]
    rw [if_neg]
    intro h
    exact hc h.1

theorem replaceEscapedChar_pair (target : Char) (l : List Char) :
    replaceEscapedChar target ('\\' :: target :: l)
      = target :: replaceEscapedChar target l := by
  rw [replaceEscapedChar, if_pos ⟨rfl, rfl⟩]

theorem replaceEscapedChar_backslash_escape (s : List Char) :
    replaceEscapedChar ',' ('\\' :: escapeCredential s)
      = '\\' :: replaceEscapedChar ',' (escapeCredential s) := by
  cases s with
  | nil => rfl
  | cons c s2 =>
    rw [escapeCredential]
    by_cases hb : c = '\\'
    · subst hb
      rw [escapeCredentialChar, if_pos rfl]
      rw [List.cons_append, List.cons_append, List.nil_append]
      rw [replaceEscapedChar, if_neg (by intro h; exact absurd h.2 (by decide))]
    · by_cases hc : c = ','
      · subst hc
        rw [escapeCredentialChar, if_neg hb, if_pos rfl]
        rw [List.cons_append, List.cons_append, List.nil_append]
        rw [replaceEscapedChar, if_neg (by intro h; exact absurd h.2 (by decide))]
      · rw [escapeCredentialChar, if_neg hb, if_neg hc]
        rw [List.cons_append, List.nil_append]
        rw [replaceEscapedChar, if_neg (by intro h; exact absurd h.2 hc)]

theorem replaceEscapedChar_comma_escape (s : List Char) :
    replaceEscapedChar ',' (escapeCredential s) = halfEscaped s := by
  induction s with
  | nil => rfl
  | cons c s2 ih =>
    show replaceEscapedChar ',' (escapeCredentialChar c ++ escapeCredential s2) = _
    by_cases hb : c = '\\'
    · subst hb
      rw [escapeCredentialChar, if_pos rfl]
      rw [List.cons_append, List.cons_append, List.nil_append]
      rw [replaceEscapedChar, if_neg (by intro h; exact absurd h.2 (by decide))]
      rw [replaceEscapedChar_backslash_escape, ih]
      rw [halfEscaped, if_pos rfl]
      rfl
    · by_cases hc : c = ','
      · subst hc
        rw [escapeCredentialChar, if_neg hb, if_pos rfl]
        rw [List.cons_append, List.cons_append, List.nil_append]
        rw [replaceEscapedChar_pair, ih]
        rw [halfEscaped, if_neg hb]
        rfl
      · rw [escapeCredentialChar, if_neg hb, if_neg hc]
        rw [List.cons_append, List.nil_append]
        rw [replaceEscapedChar_cons_ne ',' c hb, ih]
        rw [halfEscaped, if_neg hb]
        rfl

theorem replaceEscapedChar_backslash_half (s : List Char) :
    replaceEscapedChar '\\' (halfEscaped s) = s := by
  induction s with
  | nil => rfl
  | cons c s2 ih =>
    by_cases hb : c = '\\'
    · subst hb
      rw [halfEscaped, if_pos rfl]
      rw [List.cons_append, List.cons_append, List.nil_append]
      rw [replaceEscapedChar_pair, ih]
    · rw [halfEscaped, if_neg hb]
      rw [List.cons_append, List.nil_append]
      rw [replaceEscapedChar_cons_ne '\\' c hb, ih]

/-- C8: escape-encoding a credential field and applying the decoder's
un-escaping reproduces the original string exactly, for every string,
including strings containing the outer delimiter, the comma, and the escape
character itself. -/
theorem escape_unescape_roundtrip (s : List Char) :
    unescapeCredential (escapeCredential s) = s := by
  rw [unescapeCredential, replaceEscapedChar_comma_escape,
    replaceEscapedChar_backslash_half]

/-- C9 (counterexample): the character the record decoder un-escapes inside
the nested credential field is the comma, not the outer format's field
delimiter. The decoder rewrites `\,` to `,` but leaves `\;` untouched, and
the outer delimiter is `;`, which is not the comma. -/
theorem unescape_char_ne_outer_delimiter :
    unescapeCredential ['\\', ','] = [','] ∧
    unescapeCredential ['\\', outerDelimiter] = ['\\', outerDelimiter] ∧
    (',' : Char) ≠ outerDelimiter := by
  refine ⟨by decide, by decide, by decide⟩

/-- C9 (amended): the decoder un-escapes the comma (and the escape character
backslash) inside the nested credential field, while the outer format's field
delimiter is the semicolon; the un-escaped character differs from the outer
delimiter. -/
theorem unescape_targets_comma_not_delimiter :
    unescapeCredential ['\\', ','] = [','] ∧
    unescapeCredential ['\\', '\\'] = ['\\'] ∧
    unescapeCredential ['\\', ';'] = ['\\', ';'] ∧
    outerDelimiter = ';' := by
  refine ⟨by decide, by decide, by decide, rfl⟩

/-! ## Issuer key table

`main` (offline-processor, lines 78-87) decodes each supplied raw key, keys a
`HashMap` by the derived public key's base64 encoding, and collects with
`collect::<Result<HashMap<..>>>`: the first decode failure aborts the whole
construction, and inserting a duplicate map key silently overwrites the
earlier entry. The map is modelled as an association list with
overwrite-on-insert; only the key-value mapping (not bucket order) matters.
-/

/-- `HashMap::insert` semantics on an association list: any earlier entry with
the same key is removed, the new binding is appended. -/
def insertKeyed {K : Type} (m : List (String × K)) (pk : String) (key : K) :
    List (String × K) :=
  (m.filter fun p => !(p.1 == pk)) ++ [(pk, key)]

/-- `HashMap::get` on the association-list model. -/
def tableGet {K : Type} (m : List (String × K)) (pk : String) : Option K :=
  (m.find? fun p => p.1 == pk).map Prod.snd

/-- Left-to-right traversal of the raw keys, accumulating the table;
`none` as soon as one key fails to decode (`collect::<Result<_>>`). -/
def buildKeyTableAux {K : Type} (decode : String → Option K)
    (pubEncode : K → String) (acc : List (String × K)) :
    List String → Option (List (String × K))
  | [] => some acc
  | r :: rs =>
    match decode r with
    | none => none
    | some key => buildKeyTableAux decode pubEncode (insertKeyed acc (pubEncode key) key) rs

/-- The key-table construction of `main` lines 78-86: decode every raw key,
derive its public identifier, collect into a map keyed by that identifier. -/
def buildKeyTable {K : Type} (decode : String → Option K)
    (pubEncode : K → String) (raws : List String) :
    Option (List (String × K)) :=
  buildKeyTableAux decode pubEncode [] raws

theorem buildKeyTableAux_none {K : Type} (decode : String → Option K)
    (pubEncode : K → String) (r : String) (hbad : decode r = none) :
    ∀ (raws : List String) (acc : List (String × K)), r ∈ raws →
      buildKeyTableAux decode pubEncode acc raws = none := by
  intro raws
  induction raws with
  | nil => intro acc h; cases h
  | cons r2 rs ih =>
    intro acc hmem
    rw [buildKeyTableAux]
    rcases List.mem_cons.mp hmem with heq | htail
    · subst heq
      rw [hbad]
    · cases hdec : decode r2 with
      | none => rfl
      | some key => exact ih _ htail

/-- C4: if any supplied raw key fails to decode, key-table construction fails
as a whole — no partial table is produced. -/
theorem key_table_fails_atomically {K : Type} (decode : String → Option K)
    (pubEncode : K → String) (raws : List String) (r : String)
    (hmem : r ∈ raws) (hbad : decode r = none) :
    buildKeyTable decode pubEncode raws = none :=
  buildKeyTableAux_none decode pubEncode r hbad raws [] hmem

/-- C4 witness: a 3-key list whose 2nd key fails to decode yields no table at
all (zero usable keys, not two). -/
theorem key_table_fails_atomically_witness :
    ("bad" ∈ ["k1", "bad", "k3"]) ∧
    buildKeyTable (fun s => if s = "bad" then none else some s)
      (fun k => k) ["k1", "bad", "k3"] = none := by
  refine ⟨by decide, ?_⟩
  exact key_table_fails_atomically (fun s => if s = "bad" then none else some s)
    (fun k => k) ["k1", "bad", "k3"] "bad" (by decide) (by decide)

/-- C7 (counterexample): supplying the same raw key twice builds a table with
a single entry — the construction silently collapses two supplied keys whose
derived public-key identifier coincides, so the table does not contain one
entry per supplied raw key. -/
theorem duplicate_key_collapses :
    (buildKeyTable (fun s => some s) (fun k => k) ["key", "key"]).map List.length
      = some 1 ∧
    (["key", "key"] : List String).length = 2 := by
  refine ⟨by decide, by decide⟩

theorem insertKeyed_fst_nodup {K : Type} (m : List (String × K)) (pk : String)
    (key : K) (h : (m.map Prod.fst).Nodup) :
    ((insertKeyed m pk key).map Prod.fst).Nodup := by
  rw [insertKeyed, List.map_append]
  refine List.Nodup.append ?_ (List.nodup_singleton pk) ?_
  · exact h.sublist (List.Sublist.map Prod.fst (List.filter_sublist m))
  · intro x hx hx2
    rcases List.mem_map.mp hx with ⟨p, hp, hfst⟩
    rcases List.mem_filter.mp hp with ⟨_, hkeep⟩
    rw [List.mem_singleton.mp hx2] at hfst
    rw [hfst] at hkeep
    simp at hkeep

theorem insertKeyed_length_le {K : Type} (m : List (String × K)) (pk : String)
    (key : K) : (insertKeyed m pk key).length ≤ m.length + 1 := by
  rw [insertKeyed, List.length_append, List.length_singleton]
  exact Nat.add_le_add_right (List.length_filter_le _ m) 1

theorem buildKeyTableAux_nodup {K : Type} (decode : String → Option K)
    (pubEncode : K → String) :
    ∀ (raws : List String) (acc m : List (String × K)),
      (acc.map Prod.fst).Nodup →
      buildKeyTableAux decode pubEncode acc raws = some m →
      (m.map Prod.fst).Nodup ∧ m.length ≤ acc.length + raws.length := by
  intro raws
  induction raws with
  | nil =>
    intro acc m hacc h
    rw [buildKeyTableAux] at h
    cases h
    exact ⟨hacc, Nat.le_refl _⟩
  | cons r rs ih =>
    intro acc m hacc h
    rw [buildKeyTableAux] at h
    cases hdec : decode r with
    | none => rw [hdec] at h; cases h
    | some key =>
      rw [hdec] at h
      rcases ih (insertKeyed acc (pubEncode key) key) m
        (insertKeyed_fst_nodup acc (pubEncode key) key hacc) h with ⟨h1, h2⟩
      refine ⟨h1, Nat.le_trans h2 ?_⟩
      have hins := insertKeyed_length_le acc (pubEncode key) key
      rw [List.length_cons]
      omega

/-- C7 (amended): in every successfully built key table the derived
public-key identifiers are pairwise distinct (at most one entry per
identifier), and the table has at most one entry per supplied raw key —
supplying two keys that derive the same identifier silently keeps only the
later one, so the table may contain fewer entries than raw keys. -/
theorem key_table_ids_nodup {K : Type} (decode : String → Option K)
    (pubEncode : K → String) (raws : List String) (m : List (String × K))
    (h : buildKeyTable decode pubEncode raws = some m) :
    (m.map Prod.fst).Nodup ∧ m.length ≤ raws.length := by
  simpa using buildKeyTableAux_nodup decode pubEncode raws [] m List.nodup_nil h

/-- C7 amended witness: a two-key table with distinct derived identifiers. -/
theorem key_table_ids_nodup_witness :
    (([("a", "a"), ("b", "b")] : List (String × String)).map Prod.fst).Nodup ∧
    ([("a", "a"), ("b", "b")] : List (String × String)).length
      ≤ (["a", "b"] : List String).length :=
  key_table_ids_nodup (fun s => some s) (fun k => k) ["a", "b"]
    [("a", "a"), ("b", "b")] (by decide)

/-! ## The batch verification pipeline

`main` (offline-processor, lines 94-151) reads `;`-delimited lines, spawns one
pool job per line, and drains exactly `num_jobs` results from the channel.
Each job (lines 107-135) panics on a line that failed to decode (so its
channel send never happens), otherwise looks up the issuer, runs the
verification chain, and sends `(result, out_record)`. The collector
(lines 143-149) is `rx.iter().take(num_jobs)`, routing `Ok` to the success
file and `Err` to the failure file. Worker completion order is unspecified,
so the delivered list is any permutation of the per-line outcomes.
-/

/-- The `Credential` struct (offline-processor, lines 40-46): token preimage,
payload, verification signature. -/
structure Credential (P S : Type) where
  t : P
  payload : String
  signature : S

/-- The `CredentialColumn` struct (lines 32-38): the issuer's public key in
base64, the credential, and the accounting value (`f64`, carried unused). -/
structure CredentialColumn (P S : Type) where
  public_key : String
  credential : Credential P S
  value : Float

/-- The `Record` struct (lines 48-55): correlation fields plus the decoded
credential column. -/
structure Record (P S : Type) where
  id : String
  payment_id : String
  credential : CredentialColumn P S
  timestamp : String

/-- The `OutRecord` struct (lines 68-73): the correlation-field tuple written
to the output ledgers. -/
structure OutRecord where
  id : String
  payment_id : String
  timestamp : String
deriving DecidableEq

/-- `OutRecord` built from a record (lines 109-113). -/
def outRecordOf {P S : Type} (record : Record P S) : OutRecord :=
  { id := record.id, payment_id := record.payment_id, timestamp := record.timestamp }

/-- The line the collector writes for one record (line 144),
`format!("{},{},{}", id, payment_id, timestamp)` without the newline. -/
def formatLine (o : OutRecord) : String :=
  o.id ++ "," ++ o.payment_id ++ "," ++ o.timestamp

/-- The worker's verification closure (lines 115-132): resolve the claimed
issuer in the key table (`Err "Could not find issuer"` when absent), then run
the verification service — the composite of `rederive_unblinded_token`,
`derive_verification_key::<Sha512>` and `verify::<HmacSha512>` over
`(issuer, t, payload, signature)` — mapping a negative check to
`Err "Did not validate"`. -/
def workerVerify {K P S : Type} (keys : List (String × K))
    (verify : K → P → String → S → Bool) (record : Record P S) :
    Except String Unit :=
  match tableGet keys record.credential.public_key with
  | none => Except.error "Could not find issuer"
  | some issuer =>
    if verify issuer record.credential.credential.t
        record.credential.credential.payload
        record.credential.credential.signature
    then Except.ok ()
    else Except.error "Did not validate"

/-- Whether a channel message carries a success result (`Ok(_)`). -/
def resultOk : Except String Unit → Bool
  | Except.ok _ => true
  | Except.error _ => false

/-- Whether a raw input line decoded into a record. -/
def lineOk {P S : Type} : Except String (Record P S) → Bool
  | Except.ok _ => true
  | Except.error _ => false

/-- One pool job (lines 107-135). `line.expect("Invalid record format")`
panics on a decode failure, unwinding the job before any channel send, so a
bad line contributes no message (`none`); a decoded record sends
`(result, out_record)`. -/
def jobOutcome {K P S : Type} (keys : List (String × K))
    (verify : K → P → String → S → Bool) :
    Except String (Record P S) → Option (Except String Unit × OutRecord)
  | Except.error _ => none
  | Except.ok record => some (workerVerify keys verify record, outRecordOf record)

/-- All messages the dispatched jobs will ever send, in submission order; the
pool delivers them to the channel in an arbitrary interleaving, so the
collector sees some permutation of this list. -/
def batchOutcomes {K P S : Type} (keys : List (String × K))
    (verify : K → P → String → S → Bool)
    (lines : List (Except String (Record P S))) :
    List (Except String Unit × OutRecord) :=
  lines.filterMap (jobOutcome keys verify)

/-- The collector loop `for (result, record) in rx.iter().take(num_jobs)`
(lines 143-149) over the list of messages that ever arrive. When at least
`expected` messages arrive it drains exactly `expected` of them and partitions
the correlation tuples into the success and failure ledgers. When fewer
arrive, `rx.iter()` blocks forever — `main` keeps its original sender `tx`
alive, so the channel never closes — and no ledgers are ever produced
(`none`). -/
def collectLedgers (expected : Nat)
    (delivered : List (Except String Unit × OutRecord)) :
    Option (List OutRecord × List OutRecord) :=
  if expected ≤ delivered.length then
    some (((delivered.take expected).filter fun p => resultOk p.1).map Prod.snd,
      ((delivered.take expected).filter fun p => !resultOk p.1).map Prod.snd)
  else none

/-- Correlation tuples of the input lines that decoded into records. -/
def inputOutRecords {P S : Type} (lines : List (Except String (Record P S))) :
    List OutRecord :=
  lines.filterMap fun l => match l with
    | Except.ok record => some (outRecordOf record)
    | Except.error _ => none

theorem batchOutcomes_map_snd {K P S : Type} (keys : List (String × K))
    (verify : K → P → String → S → Bool)
    (lines : List (Except String (Record P S))) :
    (batchOutcomes keys verify lines).map Prod.snd = inputOutRecords lines := by
  induction lines with
  | nil => rfl
  | cons l rest ih =>
    cases l with
    | error e =>
      rw [batchOutcomes, inputOutRecords] at *
      rw [List.filterMap_cons, List.filterMap_cons]
      exact ih
    | ok record =>
      rw [batchOutcomes, inputOutRecords] at *
      rw [List.filterMap_cons, List.filterMap_cons]
      rw [jobOutcome]
      rw [List.map_cons, ih]

theorem batchOutcomes_length_of_ok {K P S : Type} (keys : List (String × K))
    (verify : K → P → String → S → Bool)
    (lines : List (Except String (Record P S)))
    (hok : ∀ l ∈ lines, lineOk l = true) :
    (batchOutcomes keys verify lines).length = lines.length := by
  induction lines with
  | nil => rfl
  | cons l rest ih =>
    cases l with
    | error e =>
      have := hok (Except.error e) (List.mem_cons_self _ _)
      rw [lineOk] at this
      cases this
    | ok record =>
      rw [batchOutcomes, List.filterMap_cons, jobOutcome, List.length_cons]
      rw [batchOutcomes] at ih
      rw [ih fun l hl => hok l (List.mem_cons_of_mem _ hl), List.length_cons]

theorem batchOutcomes_length_lt {K P S : Type} (keys : List (String × K))
    (verify : K → P → String → S → Bool)
    (lines : List (Except String (Record P S)))
    (hbad : ∃ l ∈ lines, lineOk l = false) :
    (batchOutcomes keys verify lines).length < lines.length := by
  induction lines with
  | nil => rcases hbad with ⟨l, hl, _⟩; cases hl
  | cons l rest ih =>
    cases l with
    | error e =>
      rw [batchOutcomes, List.filterMap_cons, jobOutcome, List.length_cons]
      exact Nat.lt_succ_of_le (List.length_filterMap_le _ _)
    | ok record =>
      rcases hbad with ⟨l2, hl2, hbad2⟩
      rcases List.mem_cons.mp hl2 with heq | htail
      · rw [heq, lineOk] at hbad2; cases hbad2
      · rw [batchOutcomes, List.filterMap_cons, jobOutcome, List.length_cons,
          List.length_cons]
        rw [batchOutcomes] at ih
        exact Nat.succ_lt_succ (ih ⟨l2, htail, hbad2⟩)

theorem collectLedgers_complete {K P S : Type} (keys : List (String × K))
    (verify : K → P → String → S → Bool)
    (lines : List (Except String (Record P S)))
    (delivered : List (Except String Unit × OutRecord))
    (hok : ∀ l ∈ lines, lineOk l = true)
    (hperm : delivered.Perm (batchOutcomes keys verify lines)) :
    collectLedgers lines.length delivered =
      some ((delivered.filter fun p => resultOk p.1).map Prod.snd,
        (delivered.filter fun p => !resultOk p.1).map Prod.snd) := by
  have hlen : delivered.length = lines.length := by
    rw [hperm.length_eq]
    exact batchOutcomes_length_of_ok keys verify lines hok
  have hle : lines.length ≤ delivered.length := Nat.le_of_eq hlen.symm
  have htake : delivered.take lines.length = delivered := by
    rw [← hlen]
    exact List.take_length delivered
  rw [collectLedgers, if_pos hle, htake]

/-- C1: for a batch whose lines all decode, the collector produces both
ledgers, the ledger line counts sum to the number of input records, and the
multiset of correlation tuples across the two ledgers equals the multiset of
the input records' correlation tuples, whatever order the workers finish
in. -/
theorem batch_conservation {K P S : Type} (keys : List (String × K))
    (verify : K → P → String → S → Bool)
    (lines : List (Except String (Record P S)))
    (delivered : List (Except String Unit × OutRecord))
    (hok : ∀ l ∈ lines, lineOk l = true)
    (hperm : delivered.Perm (batchOutcomes keys verify lines)) :
    ∃ s f, collectLedgers lines.length delivered = some (s, f) ∧
      s.length + f.length = lines.length ∧
      (s ++ f).Perm (inputOutRecords lines) := by
  have hlen : delivered.length = lines.length := by
    rw [hperm.length_eq]
    exact batchOutcomes_length_of_ok keys verify lines hok
  have hfp : ((delivered.filter fun p => resultOk p.1)
      ++ delivered.filter fun p => !resultOk p.1).Perm delivered :=
    List.filter_append_perm _ delivered
  refine ⟨(delivered.filter fun p => resultOk p.1).map Prod.snd,
    (delivered.filter fun p => !resultOk p.1).map Prod.snd,
    collectLedgers_complete keys verify lines delivered hok hperm, ?_, ?_⟩
  · rw [List.length_map, List.length_map, ← List.length_append,
      hfp.length_eq, hlen]
  · rw [← List.map_append]
    have hsnd : (delivered.map Prod.snd).Perm (inputOutRecords lines) := by
      rw [← batchOutcomes_map_snd keys verify lines]
      exact hperm.map Prod.snd
    exact (hfp.map Prod.snd).trans hsnd

/-- C2: in a batch whose lines all decode, a record whose claimed issuer
public key is absent from the key table has its correlation tuple written to
the failure ledger, whatever the verification service would report. -/
theorem unknown_issuer_routed_to_failure {K P S : Type}
    (keys : List (String × K)) (verify : K → P → String → S → Bool)
    (lines : List (Except String (Record P S)))
    (delivered : List (Except String Unit × OutRecord)) (record : Record P S)
    (hok : ∀ l ∈ lines, lineOk l = true)
    (hperm : delivered.Perm (batchOutcomes keys verify lines))
    (hmem : Except.ok record ∈ lines)
    (hkey : tableGet keys record.credential.public_key = none) :
    ∃ s f, collectLedgers lines.length delivered = some (s, f) ∧
      outRecordOf record ∈ f := by
  refine ⟨_, _, collectLedgers_complete keys verify lines delivered hok hperm, ?_⟩
  have hpair : (workerVerify keys verify record, outRecordOf record)
      ∈ batchOutcomes keys verify lines :=
    List.mem_filterMap.mpr ⟨Except.ok record, hmem, rfl⟩
  have hdel : (workerVerify keys verify record, outRecordOf record) ∈ delivered :=
    hperm.mem_iff.mpr hpair
  refine List.mem_map.mpr
    ⟨(workerVerify keys verify record, outRecordOf record), ?_, rfl⟩
  refine List.mem_filter.mpr ⟨hdel, ?_⟩
  simp only [workerVerify, hkey]
  rfl

/-- C3: in a batch whose lines all decode, a record whose claimed issuer key
is present in the key table has its correlation tuple written to the success
ledger when the verification service passes and to the failure ledger when it
fails. -/
theorem verification_outcome_routed {K P S : Type}
    (keys : List (String × K)) (verify : K → P → String → S → Bool)
    (lines : List (Except String (Record P S)))
    (delivered : List (Except String Unit × OutRecord)) (record : Record P S)
    (issuer : K)
    (hok : ∀ l ∈ lines, lineOk l = true)
    (hperm : delivered.Perm (batchOutcomes keys verify lines))
    (hmem : Except.ok record ∈ lines)
    (hkey : tableGet keys record.credential.public_key = some issuer) :
    ∃ s f, collectLedgers lines.length delivered = some (s, f) ∧
      (verify issuer record.credential.credential.t
          record.credential.credential.payload
          record.credential.credential.signature = true →
        outRecordOf record ∈ s) ∧
      (verify issuer record.credential.credential.t
          record.credential.credential.payload
          record.credential.credential.signature = false →
        outRecordOf record ∈ f) := by
  refine ⟨_, _, collectLedgers_complete keys verify lines delivered hok hperm,
    ?_, ?_⟩
  all_goals
    intro hv
    have hpair : (workerVerify keys verify record, outRecordOf record)
        ∈ batchOutcomes keys verify lines :=
      List.mem_filterMap.mpr ⟨Except.ok record, hmem, rfl⟩
    have hdel : (workerVerify keys verify record, outRecordOf record) ∈ delivered :=
      hperm.mem_iff.mpr hpair
    refine List.mem_map.mpr
      ⟨(workerVerify keys verify record, outRecordOf record), ?_, rfl⟩
    refine List.mem_filter.mpr ⟨hdel, ?_⟩
    simp only [workerVerify, hkey]
    rw [hv]
    rfl

/-- C5: an input containing a line that does not decode into a record is
fatal to the batch: the job for that line panics before sending, the
collector waits for more outcomes than will ever arrive, and no ledgers are
produced — the malformed record is neither routed to the failure ledger nor
does the run complete normally. -/
theorem malformed_record_fatal {K P S : Type} (keys : List (String × K))
    (verify : K → P → String → S → Bool)
    (lines : List (Except String (Record P S)))
    (delivered : List (Except String Unit × OutRecord))
    (hbad : ∃ l ∈ lines, lineOk l = false)
    (hperm : delivered.Perm (batchOutcomes keys verify lines)) :
    collectLedgers lines.length delivered = none := by
  have hlt : delivered.length < lines.length := by
    rw [hperm.length_eq]
    exact batchOutcomes_length_lt keys verify lines hbad
  rw [collectLedgers, if_neg (Nat.not_le.mpr hlt)]

/-- C6: when fewer outcomes are ever delivered than records were submitted,
the collector never terminates with a short count: `rx.iter()` blocks forever
(`main` keeps its sender alive, so the channel never closes) and no ledgers —
in particular no silently incomplete ledgers — are produced. -/
theorem delivery_shortfall_no_ledger (expected : Nat)
    (delivered : List (Except String Unit × OutRecord))
    (h : delivered.length < expected) :
    collectLedgers expected delivered = none := by
  rw [collectLedgers, if_neg (Nat.not_le.mpr h)]

/-! ## The key-augmentation tool

`tools/cbp-dump-processor/src/main.rs` reads CSV records from stdin and, per
record (lines 31-43), takes the field at index 1 (`record.get(1)`), decodes it
as a base64 signing key, clones the record, appends the base64 encoding of the
derived public key (`push_field`), and writes the result. A missing field
panics and a decode failure propagates — both fatal, modelled as `none`.
-/

/-- One iteration of the cbp-dump-processor loop: `pubEncode` stands for
`SigningKey::decode_base64(..)?.public_key.encode_base64()`'s encoding half. -/
def augmentRecord {K : Type} (decode : String → Option K)
    (pubEncode : K → String) (record : List String) : Option (List String) :=
  match record[1]? with
  | none => none
  | some privateKey =>
    match decode privateKey with
    | none => none
    | some key => some (record ++ [pubEncode key])

/-- C10: for every input CSV record whose field at index 1 decodes as a
signing key, the emitted record is exactly the input record with the derived
public key's base64 encoding appended as one extra field — every original
field is unchanged in value and order. -/
theorem augment_appends_public_key {K : Type} (decode : String → Option K)
    (pubEncode : K → String) (record : List String) (privateKey : String)
    (key : K) (h1 : record[1]? = some privateKey)
    (h2 : decode privateKey = some key) :
    augmentRecord decode pubEncode record = some (record ++ [pubEncode key]) := by
  simp only [augmentRecord, h1, h2]

/-- C10 witness: a two-field record gains exactly its derived public key. -/
theorem augment_appends_public_key_witness :
    augmentRecord (fun s => some s) (fun k => k ++ "-pub") ["row1", "priv"]
      = some (["row1", "priv"] ++ [("priv" : String) ++ "-pub"]) :=
  augment_appends_public_key (fun s => some s) (fun k => k ++ "-pub")
    ["row1", "priv"] "priv" "priv" rfl rfl

/-! ## Concrete batch fixtures for the witnesses -/

/-- A record claiming the known issuer `pk1`. -/
def sampleRecord : Record String String :=
  { id := "id1", payment_id := "pay1",
    credential :=
      { public_key := "pk1",
        credential := { t := "t1", payload := "hello", signature := "sig1" },
        value := 1.0 },
    timestamp := "ts1" }

/-- A record claiming an issuer absent from the key table. -/
def sampleUnknownRecord : Record String String :=
  { id := "id2", payment_id := "pay2",
    credential :=
      { public_key := "pk9",
        credential := { t := "t2", payload := "world", signature := "sig2" },
        value := 2.0 },
    timestamp := "ts2" }

/-- A one-issuer key table. -/
def sampleKeys : List (String × String) := [("pk1", "sk1")]

/-- A deterministic stand-in for the verification service. -/
def sampleVerify : String → String → String → String → Bool :=
  fun key _ payload _ => key == "sk1" && payload == "hello"

/-- C1 witness: a two-record batch, delivered in reverse order, conserves the
correlation tuples across the two ledgers. -/
theorem batch_conservation_witness :
    ∃ s f,
      collectLedgers
        ([Except.ok sampleRecord, Except.ok sampleUnknownRecord]
          : List (Except String (Record String String))).length
        ((batchOutcomes sampleKeys sampleVerify
          [Except.ok sampleRecord, Except.ok sampleUnknownRecord]).reverse)
        = some (s, f) ∧
      s.length + f.length
        = ([Except.ok sampleRecord, Except.ok sampleUnknownRecord]
            : List (Except String (Record String String))).length ∧
      (s ++ f).Perm (inputOutRecords
        [Except.ok sampleRecord, Except.ok sampleUnknownRecord]) :=
  batch_conservation sampleKeys sampleVerify
    [Except.ok sampleRecord, Except.ok sampleUnknownRecord] _
    (by
      intro l hl
      rcases List.mem_cons.mp hl with h | h
      · rw [h]; rfl
      · rcases List.mem_cons.mp h with h2 | h2
        · rw [h2]; rfl
        · cases h2)
    (List.reverse_perm _)

/-- C2 witness: a record with an unknown issuer key lands in the failure
ledger. -/
theorem unknown_issuer_routed_witness :
    ∃ s f,
      collectLedgers
        ([Except.ok sampleUnknownRecord]
          : List (Except String (Record String String))).length
        (batchOutcomes sampleKeys sampleVerify [Except.ok sampleUnknownRecord])
        = some (s, f) ∧
      outRecordOf sampleUnknownRecord ∈ f :=
  unknown_issuer_routed_to_failure sampleKeys sampleVerify
    [Except.ok sampleUnknownRecord] _ sampleUnknownRecord
    (by
      intro l hl
      rcases List.mem_cons.mp hl with h | h
      · rw [h]; rfl
      · cases h)
    (List.Perm.refl _) (List.mem_singleton.mpr rfl) (by decide)

/-- C3 witness: a record with a known issuer key is routed by the
verification service's verdict. -/
theorem verification_outcome_routed_witness :
    ∃ s f,
      collectLedgers
        ([Except.ok sampleRecord]
          : List (Except String (Record String String))).length
        (batchOutcomes sampleKeys sampleVerify [Except.ok sampleRecord])
        = some (s, f) ∧
      (sampleVerify "sk1" sampleRecord.credential.credential.t
          sampleRecord.credential.credential.payload
          sampleRecord.credential.credential.signature = true →
        outRecordOf sampleRecord ∈ s) ∧
      (sampleVerify "sk1" sampleRecord.credential.credential.t
          sampleRecord.credential.credential.payload
          sampleRecord.credential.credential.signature = false →
        outRecordOf sampleRecord ∈ f) :=
  verification_outcome_routed sampleKeys sampleVerify
    [Except.ok sampleRecord] _ sampleRecord "sk1"
    (by
      intro l hl
      rcases List.mem_cons.mp hl with h | h
      · rw [h]; rfl
      · cases h)
    (List.Perm.refl _) (List.mem_singleton.mpr rfl) (by decide)

/-- C5 witness: a batch containing one undecodable line yields no ledgers. -/
theorem malformed_record_fatal_witness :
    collectLedgers
      ([Except.error "Invalid record format"]
        : List (Except String (Record String String))).length
      (batchOutcomes sampleKeys sampleVerify
        [Except.error "Invalid record format"]) = none :=
  malformed_record_fatal sampleKeys sampleVerify
    [Except.error "Invalid record format"] _
    ⟨Except.error "Invalid record format", List.mem_singleton.mpr rfl, rfl⟩
    (List.Perm.refl _)

/-- C6 witness: two submitted records but an empty delivery produce no
ledgers at all. -/
theorem delivery_shortfall_no_ledger_witness :
    collectLedgers 2 ([] : List (Except String Unit × OutRecord)) = none :=
  delivery_shortfall_no_ledger 2 [] (by decide)
